import Mathlib

/-!
botella: the dispatch loop, the loaders and the shutdown barrier of `main.go`.

A shallow embedding of `src/main.go`.

* Go strings are byte sequences; a byte is embedded as a natural number.
* The collaborators that live outside `main.go` (`plugin.New`, `bot.New`,
  `Plugin.Run`, `Plugin.Stop`, `os.Stat`, `config.NewFromFile`) are taken as
  parameters, collected in `External`; they act on an explicit world state `σ`.
* A send on a Go channel is recorded as an event of a trace. The channels are
  created by `adapter.RunAndAttach()`, outside `main.go`; `Channels` is their sending
  side, and a send that never completes blocks the goroutine (`pluginLoop`).
  `handleMessage` is the same loop for channels that accept every send (`pluginLoop_ready`).
* `log.Debugf` / `log.Infof` calls are observability only and are not recorded.
* The goroutines and the `sync.WaitGroup` of `listenAndReply` are embedded as a
  transition system (`Sys`, `step`) whose actions are the atomic steps of the
  main goroutine and of the workers; `Proc`, `procStep` add the world, the trace
  and the plugin loop to it.
-/

namespace Botella

/-! ## Strings -/

/-- A Go string: a sequence of bytes, each byte embedded as a natural number. -/
abbrev GoString := List Nat

/-- The bytes of an ASCII literal. -/
def str (s : String) : GoString := s.toList.map Char.toNat

/-- The Go literal `"\n"`. -/
def newline : GoString := [10]

/-- Go `strings.HasSuffix`:
`len(s) >= len(suffix) && s[len(s)-len(suffix):] == suffix`. -/
def HasSuffix (s suffix : GoString) : Bool :=
  decide (s.length ≥ suffix.length) && (s.drop (s.length - suffix.length) == suffix)

/-- Go `strings.TrimSuffix`:
`if HasSuffix(s, suffix) { return s[:len(s)-len(suffix)] }; return s`. -/
def TrimSuffix (s suffix : GoString) : GoString :=
  if HasSuffix s suffix then s.take (s.length - suffix.length) else s

/-- A Go `error`, embedded as its message. -/
abbrev GoError := GoString

/-! ## Data model -/

/-- The environment of a descriptor; `main.go` only passes it on to the constructors. -/
abbrev Environment := List (GoString × GoString)

/-- The type `bot.Message`. -/
structure Message where
  Channel : GoString
  Body : GoString
  deriving DecidableEq

/-- The object behind a `*plugin.Plugin`: `ptr` is the identity of the handle, the other
fields are the ones `main.go` reads or writes. -/
structure Plugin where
  ptr : Nat
  Image : GoString
  RunOnlyOnChannels : List GoString
  RunOnlyOnDirectMessages : Bool
  RunOnlyOnMentions : Bool
  deriving DecidableEq

/-- Modelled from the spec: the interface `bot.Adapter` is declared outside `main.go`; its
eligibility predicate `ShouldRun(p, &m)` is "a pure function of (adapter, plugin, inbound
message) → boolean; no state is retained between evaluations". -/
structure Adapter where
  Name : GoString
  ShouldRun : Plugin → Message → Bool

/-- One entry of `config.Plugins`. -/
structure PluginConfig where
  Image : GoString
  Environment : Environment
  OnlyChannels : List GoString
  OnlyDirectMessages : Bool
  OnlyMentions : Bool
  deriving DecidableEq

/-- One entry of `config.Adapters`. -/
structure AdapterConfig where
  Name : GoString
  Environment : Environment
  deriving DecidableEq

/-- The type `config.Config`. -/
structure Config where
  Adapters : List AdapterConfig
  Plugins : List PluginConfig
  deriving DecidableEq

/-- The operations `main.go` calls in other packages, as functions of a world state `σ`.
`pluginNew` is assumed to return a freshly allocated handle. -/
structure External (σ : Type) where
  pluginNew : GoString → Environment → σ → Except GoError Plugin × σ
  botNew : GoString → Environment → σ → Except GoError Adapter × σ
  Run : Plugin → GoString → σ → Except GoError GoString × σ
  Stop : Plugin → σ → Option GoError × σ
  stat : GoString → σ → Bool
  NewFromFile : GoString → σ → Except GoError Config × σ

/-- What a goroutine of `listenAndReply` does to the outside. -/
inductive Event where
  /-- The call `p.Run(input)` -/
  | run (p : Plugin) (input : GoString)
  /-- The send `stdoutCh <- msg` -/
  | stdout (msg : Message)
  /-- The send `stderrCh <- e` -/
  | stderr (e : GoError)
  /-- The call `log.Error(e)` -/
  | logError (e : GoError)
  /-- The call `wg.Done()` -/
  | done
  /-- The call `plugin.Stop()` -/
  | stop (p : Plugin)
  deriving DecidableEq

/-! ## The dispatch loop (`listenAndReply`, lines 80-108) -/

/-- One iteration of `for _, p := range plugins` (lines 85-99) when the send of the iteration
completes at once; `pluginLoopBody` is the iteration for a send that may block. -/
def pluginIteration {σ : Type} (ext : External σ) (adapter : Adapter) (m : Message)
    (p : Plugin) (w : σ) : List Event × σ :=
  if !adapter.ShouldRun p m then
    ([], w)
  else
    match ext.Run p m.Body w with
    | (Except.error err, w1) => ([Event.run p m.Body, Event.stderr err], w1)
    | (Except.ok pluginResponse, w1) =>
      ([Event.run p m.Body,
        Event.stdout { Channel := m.Channel, Body := TrimSuffix pluginResponse newline }], w1)

/-- The loop `for _, p := range plugins` of the case `m := <-stdinCh` (lines 84-100) when every
send completes at once; `pluginLoop` is the loop for sends that may block. -/
def handleMessage {σ : Type} (ext : External σ) (adapter : Adapter) (m : Message) :
    List Plugin → σ → List Event × σ
  | [], w => ([], w)
  | p :: ps, w =>
    let r := pluginIteration ext adapter m p w
    let r2 := handleMessage ext adapter m ps r.2
    (r.1 ++ r2.1, r2.2)

/-- The teardown loop `for _, plugin := range plugins { plugin.Stop() }` (lines 115-117); what
`Stop` returns is discarded. -/
def teardown {σ : Type} (ext : External σ) : List Plugin → σ → List Event × σ
  | [], w => ([], w)
  | p :: ps, w =>
    let r := teardown ext ps (ext.Stop p w).2
    (Event.stop p :: r.1, r.2)

/-! ## The loaders and `main` (lines 22-68 and 120-146) -/

/-- The error `fmt.Errorf("Error loading plugin (image: %s): %v", pluginConfig.Image, err)`. -/
def errLoadingPlugin (image : GoString) (err : GoError) : GoError :=
  str "Error loading plugin (image: " ++ image ++ str "): " ++ err

/-- The loop of `loadPlugins`; `plugins` is the slice built so far. A Go `nil` slice is `[]`,
a `nil` error is `none`. -/
def loadPluginsFrom {σ : Type} (ext : External σ) :
    List PluginConfig → List Plugin → σ → (List Plugin × Option GoError) × σ
  | [], plugins, w => ((plugins, none), w)
  | pluginConfig :: rest, plugins, w =>
    match ext.pluginNew pluginConfig.Image pluginConfig.Environment w with
    | (Except.error err, w1) => (([], some (errLoadingPlugin pluginConfig.Image err)), w1)
    | (Except.ok plugin, w1) =>
      loadPluginsFrom ext rest
        (plugins ++ [{ plugin with
          RunOnlyOnChannels := pluginConfig.OnlyChannels
          RunOnlyOnDirectMessages := pluginConfig.OnlyDirectMessages
          RunOnlyOnMentions := pluginConfig.OnlyMentions }]) w1

/-- The function `loadPlugins` (lines 34-54). -/
def loadPlugins {σ : Type} (ext : External σ) (config : Config) (w : σ) :
    (List Plugin × Option GoError) × σ :=
  loadPluginsFrom ext config.Plugins [] w

/-- Where the main goroutine is. -/
inductive MainPC where
  /-- in the loop `for _, adapter := range adapters`, or (once it is over) in `wg.Wait()` -/
  | running
  /-- in the teardown loop, `k` plugins stopped so far -/
  | teardown (k : Nat)
  /-- returned from `listenAndReply` and from `main`: the process is gone -/
  | exited
  deriving DecidableEq

/-- Where a worker goroutine is. -/
inductive WorkerPC where
  /-- blocked in its `select` -/
  | atSelect
  /-- in `for i := 0; i < len(adapters); i++ { wg.Done() }`, about to run iteration `i` -/
  | inSignal (i : Nat)
  deriving DecidableEq

/-- The state of the process while `listenAndReply` runs. `counter` is the counter of the
`WaitGroup`; `adds`, `dones`, `observed` and `handled` count the `wg.Add(1)` calls, the
`wg.Done()` calls, the times a worker took `case <-signalsCh` and the times a worker took
`case m := <-stdinCh`. `panicked` is set by `wg.Done()` when the counter becomes negative
("sync: negative WaitGroup counter"). -/
structure Sys where
  mainPC : MainPC
  registered : Nat
  counter : Int
  workers : List WorkerPC
  adds : Nat
  dones : Nat
  observed : Nat
  handled : Nat
  panicked : Bool
  deriving DecidableEq

/-- The atomic steps of the goroutines. -/
inductive Action where
  /-- main: one iteration of the adapter loop, `wg.Add(1)` and `go func(...)` -/
  | register
  /-- main: `wg.Wait()` returns -/
  | wait
  /-- main: one iteration of the teardown loop, `plugin.Stop()` -/
  | stop
  /-- main: the teardown loop is over, `listenAndReply` and `main` return -/
  | exit
  /-- worker `i`: `case <-signalsCh` fires -/
  | observe (i : Nat)
  /-- worker `i`: one iteration of the `wg.Done()` loop -/
  | done (i : Nat)
  /-- worker `i`: `case m := <-stdinCh` fires and the plugin loop runs -/
  | message (i : Nat)
  deriving DecidableEq

/-- The process is running: no goroutine has panicked and `main` has not returned. -/
def Sys.alive (s : Sys) : Bool := !s.panicked && decide (s.mainPC ≠ MainPC.exited)

/-- The state at the entry of `listenAndReply`. -/
def Sys.init : Sys :=
  { mainPC := MainPC.running, registered := 0, counter := 0, workers := [], adds := 0,
    dones := 0, observed := 0, handled := 0, panicked := false }

/-- One atomic step of `listenAndReply` with `nAdapters = len(adapters)` and
`nPlugins = len(plugins)`; `none` when the action is not enabled. -/
def step (nAdapters nPlugins : Nat) (s : Sys) : Action → Option Sys
  | Action.register =>
    if s.alive ∧ s.mainPC = MainPC.running ∧ s.registered < nAdapters then
      some { s with
        registered := s.registered + 1
        counter := s.counter + 1
        adds := s.adds + 1
        workers := s.workers ++ [WorkerPC.atSelect] }
    else none
  | Action.wait =>
    if s.alive ∧ s.mainPC = MainPC.running ∧ s.registered = nAdapters ∧ s.counter = 0 then
      some { s with mainPC := MainPC.teardown 0 }
    else none
  | Action.stop =>
    match s.mainPC with
    | MainPC.teardown k =>
      if s.alive ∧ k < nPlugins then some { s with mainPC := MainPC.teardown (k + 1) } else none
    | _ => none
  | Action.exit =>
    match s.mainPC with
    | MainPC.teardown k =>
      if s.alive ∧ k = nPlugins then some { s with mainPC := MainPC.exited } else none
    | _ => none
  | Action.observe i =>
    if s.alive ∧ s.workers[i]? = some WorkerPC.atSelect then
      some { s with
        workers := s.workers.set i (WorkerPC.inSignal 0)
        observed := s.observed + 1 }
    else none
  | Action.done i =>
    match s.workers[i]? with
    | some (WorkerPC.inSignal j) =>
      if s.alive ∧ j < nAdapters then
        some { s with
          counter := s.counter - 1
          dones := s.dones + 1
          panicked := decide (s.counter - 1 < 0)
          workers := s.workers.set i
            (if j + 1 < nAdapters then WorkerPC.inSignal (j + 1) else WorkerPC.atSelect) }
      else none
    | _ => none
  | Action.message i =>
    if s.alive ∧ s.workers[i]? = some WorkerPC.atSelect then
      some { s with handled := s.handled + 1 }
    else none

/-- Run a sequence of actions; `none` when one of them is not enabled. -/
def exec (nAdapters nPlugins : Nat) : Sys → List Action → Option Sys
  | s, [] => some s
  | s, a :: as => (step nAdapters nPlugins s a).bind (fun t => exec nAdapters nPlugins t as)

/-- The states `listenAndReply` can be in. -/
def Reachable (nAdapters nPlugins : Nat) (s : Sys) : Prop :=
  ∃ acts : List Action, exec nAdapters nPlugins Sys.init acts = some s

/-- The calls `p.Run(input)` of a trace, in order. -/
def runCalls : List Event → List (Plugin × GoString)
  | [] => []
  | Event.run p input :: es => (p, input) :: runCalls es
  | _ :: es => runCalls es

/-! ## Concrete collaborators, used to instantiate the theorems -/

namespace Demo

/-- An adapter without channel restriction of its own: a plugin is eligible when its
allowlist is empty or contains the channel of the message. -/
def adapter : Adapter where
  Name := str "A"
  ShouldRun := fun p m => p.RunOnlyOnChannels.isEmpty || p.RunOnlyOnChannels.contains m.Channel

/-- Collaborators over a world that counts the calls made: images and adapters named `bad`
cannot be constructed, the plugin `fail` returns an error, any other plugin answers with its
image name and a newline (`twice`: two newlines). -/
def ext : External Nat where
  pluginNew := fun image _ w =>
    (if image = str "bad" then Except.error (str "no such image")
     else Except.ok ⟨w, image, [], false, false⟩, w + 1)
  botNew := fun name _ w =>
    (if name = str "bad" then Except.error (str "no such adapter")
     else Except.ok ⟨name, fun _ _ => true⟩, w + 1)
  Run := fun p _ w =>
    (if p.Image = str "fail" then Except.error (str "boom")
     else if p.Image = str "twice" then Except.ok (str "ack\n\n")
     else Except.ok (p.Image ++ newline), w + 1)
  Stop := fun _ w => (none, w)
  stat := fun path _ => path = str "ava.yaml"
  NewFromFile := fun _ w => (Except.ok ⟨[], []⟩, w)

/-- Plugin P1: no flags. -/
def P1 : Plugin := ⟨1, str "pong", [], false, false⟩

/-- Plugin P2: channel allowlist `ops`. -/
def P2 : Plugin := ⟨2, str "ack", [str "ops"], false, false⟩

/-- A plugin whose output ends in two newlines. -/
def PTwice : Plugin := ⟨4, str "twice", [], false, false⟩

/-- A configuration with one adapter and three plugins, the second of which cannot be
constructed. -/
def config : Config :=
  { Adapters := [⟨str "slack", []⟩]
    Plugins := [⟨str "pong", [], [str "ops"], false, true⟩, ⟨str "bad", [], [], false, false⟩,
      ⟨str "ack", [], [], false, false⟩] }

end Demo


/-! ## Named states of the transition system -/

/-- The state after `k` iterations of the adapter loop, before any signal. -/
def Sys.afterRegister (k : Nat) : Sys :=
  { mainPC := MainPC.running, registered := k, counter := k,
    workers := List.replicate k WorkerPC.atSelect, adds := k,
    dones := 0, observed := 0, handled := 0, panicked := false }

/-- All `n` adapters are registered, worker `i` has taken the signal branch and has made `j`
of its `wg.Done()` calls. -/
def Sys.releasing (n i j : Nat) : Sys :=
  { mainPC := MainPC.running, registered := n, counter := (n : Int) - j,
    workers := (List.replicate n WorkerPC.atSelect).set i (WorkerPC.inSignal j), adds := n,
    dones := j, observed := 1, handled := 0, panicked := false }

/-- All `n` adapters are registered and one worker has finished its `wg.Done()` loop. -/
def Sys.released (n : Nat) : Sys :=
  { mainPC := MainPC.running, registered := n, counter := 0,
    workers := List.replicate n WorkerPC.atSelect, adds := n,
    dones := n, observed := 1, handled := 0, panicked := false }

/-- The invariant behind the barrier: the counter is the number of registrations minus the
number of `wg.Done()` calls, and as long as no worker has taken the signal branch no
`wg.Done()` was called, every worker is at its `select`, and (with at least one adapter) the
main goroutine has not passed `wg.Wait()`. -/
def BarrierInv (nAdapters : Nat) (s : Sys) : Prop :=
  s.counter = (s.registered : Int) - s.dones ∧
  (s.observed = 0 →
    s.dones = 0 ∧ (∀ x ∈ s.workers, x = WorkerPC.atSelect) ∧
    (1 ≤ nAdapters → s.mainPC = MainPC.running))

/-- The channels `stdoutCh` and `stderrCh` returned by `adapter.RunAndAttach()`, as the worker
sees them. A send gives `none` when it never completes (the buffer is full, or the channel is
unbuffered, and no goroutine receives: inside the plugin loop the worker itself, the one
receiver of `stderrCh` in `main.go`, cannot receive), and the world after the send otherwise.
`recvStderr` is the effect of the worker's own receive `err := <-stderrCh`. -/
structure Channels (σ : Type) where
  sendStdout : Message → σ → Option σ
  sendStderr : GoError → σ → Option σ
  recvStderr : GoError → σ → σ

/-- Channels that accept every send at once. -/
def Channels.ready {σ : Type} : Channels σ :=
  { sendStdout := fun _ w => some w, sendStderr := fun _ w => some w,
    recvStderr := fun _ w => w }

/-- How far a goroutine got: what it did, the world it left, and whether it is blocked for
good in a send. -/
structure Progress (σ : Type) where
  trace : List Event
  world : σ
  blocked : Bool
  deriving DecidableEq

/-- One iteration of `for _, p := range plugins` (lines 85-99); a send is recorded once it has
completed. -/
def pluginLoopBody {σ : Type} (ext : External σ) (ch : Channels σ) (adapter : Adapter)
    (m : Message) (p : Plugin) (w : σ) : Progress σ :=
  if !adapter.ShouldRun p m then
    { trace := [], world := w, blocked := false }
  else
    match ext.Run p m.Body w with
    | (Except.error err, w1) =>
      match ch.sendStderr err w1 with
      | none => { trace := [Event.run p m.Body], world := w1, blocked := true }
      | some w2 =>
        { trace := [Event.run p m.Body, Event.stderr err], world := w2, blocked := false }
    | (Except.ok pluginResponse, w1) =>
      match ch.sendStdout
          { Channel := m.Channel, Body := TrimSuffix pluginResponse newline } w1 with
      | none => { trace := [Event.run p m.Body], world := w1, blocked := true }
      | some w2 =>
        { trace := [Event.run p m.Body,
            Event.stdout { Channel := m.Channel, Body := TrimSuffix pluginResponse newline }],
          world := w2, blocked := false }

/-- The loop `for _, p := range plugins` of the case `m := <-stdinCh` (lines 84-100); the
loop goes no further than an iteration that blocks. -/
def pluginLoop {σ : Type} (ext : External σ) (ch : Channels σ) (adapter : Adapter)
    (m : Message) : List Plugin → σ → Progress σ
  | [], w => { trace := [], world := w, blocked := false }
  | p :: ps, w =>
    let r := pluginLoopBody ext ch adapter m p w
    if r.blocked then r
    else
      let r2 := pluginLoop ext ch adapter m ps r.world
      { trace := r.trace ++ r2.trace, world := r2.world, blocked := r2.blocked }

/-- The process while `listenAndReply` runs: the control state `sys`, the world of the
collaborators, the events so far in the order they happened, and the workers that are blocked
for good in a send. -/
structure Proc (σ : Type) where
  sys : Sys
  world : σ
  trace : List Event
  stuck : List Nat
  deriving DecidableEq

/-- The atomic steps of the process; the plugin loop run for one message is one step. -/
inductive Move where
  /-- main: one iteration of the adapter loop -/
  | register
  /-- main: `wg.Wait()` returns -/
  | wait
  /-- main: one iteration of the teardown loop -/
  | stop
  /-- main: `listenAndReply` and `main` return -/
  | exit
  /-- worker `i`: `case <-signalsCh` fires -/
  | observe (i : Nat)
  /-- worker `i`: one iteration of the `wg.Done()` loop -/
  | done (i : Nat)
  /-- worker `i`: `case m := <-stdinCh` fires and the plugin loop runs -/
  | stdin (i : Nat) (m : Message)
  /-- worker `i`: `case err := <-stderrCh` fires -/
  | stderr (i : Nat) (e : GoError)
  deriving DecidableEq

/-- The state at the entry of `listenAndReply`, in the world `w`. -/
def Proc.init {σ : Type} (w : σ) : Proc σ :=
  { sys := Sys.init, world := w, trace := [], stuck := [] }

/-- One atomic step of the process. The control part of every step is the step of `step`; a
worker that is blocked in a send takes no step. -/
def procStep {σ : Type} (ext : External σ) (ch : Channels σ) (adapters : List Adapter)
    (plugins : List Plugin) (s : Proc σ) : Move → Option (Proc σ)
  | Move.register =>
    (step adapters.length plugins.length s.sys Action.register).map
      (fun t => { s with sys := t })
  | Move.wait =>
    (step adapters.length plugins.length s.sys Action.wait).map
      (fun t => { s with sys := t })
  | Move.stop =>
    match s.sys.mainPC with
    | MainPC.teardown k =>
      match plugins[k]?, step adapters.length plugins.length s.sys Action.stop with
      | some p, some t =>
        some { s with
          sys := t
          world := (ext.Stop p s.world).2
          trace := s.trace ++ [Event.stop p] }
      | _, _ => none
    | _ => none
  | Move.exit =>
    (step adapters.length plugins.length s.sys Action.exit).map
      (fun t => { s with sys := t })
  | Move.observe i =>
    if i ∈ s.stuck then none
    else
      (step adapters.length plugins.length s.sys (Action.observe i)).map
        (fun t => { s with sys := t })
  | Move.done i =>
    if i ∈ s.stuck then none
    else
      (step adapters.length plugins.length s.sys (Action.done i)).map
        (fun t => { s with sys := t, trace := s.trace ++ [Event.done] })
  | Move.stdin i m =>
    if i ∈ s.stuck then none
    else
      match adapters[i]?, step adapters.length plugins.length s.sys (Action.message i) with
      | some adapter, some t =>
        some
          { sys := t
            world := (pluginLoop ext ch adapter m plugins s.world).world
            trace := s.trace ++ (pluginLoop ext ch adapter m plugins s.world).trace
            stuck :=
              if (pluginLoop ext ch adapter m plugins s.world).blocked then i :: s.stuck
              else s.stuck }
      | _, _ => none
  | Move.stderr i e =>
    if i ∈ s.stuck then none
    else if s.sys.alive ∧ s.sys.workers[i]? = some WorkerPC.atSelect then
      some { s with world := ch.recvStderr e s.world, trace := s.trace ++ [Event.logError e] }
    else none

/-- Run a sequence of moves; `none` when one of them is not enabled. -/
def procExec {σ : Type} (ext : External σ) (ch : Channels σ) (adapters : List Adapter)
    (plugins : List Plugin) : Proc σ → List Move → Option (Proc σ)
  | s, [] => some s
  | s, mv :: mvs =>
    (procStep ext ch adapters plugins s mv).bind
      (fun t => procExec ext ch adapters plugins t mvs)

/-- The run in which all `n` adapters are registered, worker `i` takes the signal branch and
makes its `n` `wg.Done()` calls, `wg.Wait()` returns and `k` plugins are stopped. -/
def shutdownMoves (n i k : Nat) : List Move :=
  List.replicate n Move.register ++ Move.observe i :: List.replicate n (Move.done i) ++
    Move.wait :: List.replicate k Move.stop

/-- The barrier is released and `k` plugins are stopped. -/
def Sys.tearingDown (n k : Nat) : Sys :=
  { Sys.released n with mainPC := MainPC.teardown k }

/-- Collaborators whose world is the list of the plugins `Stop` was called on; every `Stop`
returns an error. -/
def Demo.extLog : External (List Plugin) where
  pluginNew := fun _ _ w => (Except.error (str "none"), w)
  botNew := fun _ _ w => (Except.error (str "none"), w)
  Run := fun _ _ w => (Except.error (str "none"), w)
  Stop := fun p w => (some (str "stop failed"), w ++ [p])
  stat := fun _ _ => false
  NewFromFile := fun _ w => (Except.error (str "none"), w)

/-! ## Auxiliary facts -/

theorem TrimSuffix_append_newline (u : GoString) : TrimSuffix (u ++ newline) newline = u := by
  simp [TrimSuffix, HasSuffix, newline]

theorem TrimSuffix_of_no_newline (t : GoString) (h : ∀ u, t ≠ u ++ newline) :
    TrimSuffix t newline = t := by
  unfold TrimSuffix
  split
  · rename_i hs
    exfalso
    simp only [HasSuffix, Bool.and_eq_true, decide_eq_true_eq, beq_iff_eq] at hs
    apply h (t.take (t.length - newline.length))
    conv_lhs => rw [← List.take_append_drop (t.length - newline.length) t]
    rw [hs.2]
  · rfl

theorem handleMessage_append {σ : Type} (ext : External σ) (adapter : Adapter) (m : Message)
    (ps qs : List Plugin) (w : σ) :
    handleMessage ext adapter m (ps ++ qs) w =
      ((handleMessage ext adapter m ps w).1 ++
          (handleMessage ext adapter m qs (handleMessage ext adapter m ps w).2).1,
        (handleMessage ext adapter m qs (handleMessage ext adapter m ps w).2).2) := by
  induction ps generalizing w with
  | nil => simp [handleMessage]
  | cons p ps ih => simp [handleMessage, ih, List.append_assoc]

theorem pluginIteration_ok {σ : Type} (ext : External σ) (adapter : Adapter) (m : Message)
    (p : Plugin) (w w1 : σ) (t : GoString) (hElig : adapter.ShouldRun p m = true)
    (hRun : ext.Run p m.Body w = (Except.ok t, w1)) :
    pluginIteration ext adapter m p w =
      ([Event.run p m.Body,
        Event.stdout { Channel := m.Channel, Body := TrimSuffix t newline }], w1) := by
  simp [pluginIteration, hElig, hRun]

theorem pluginIteration_skip {σ : Type} (ext : External σ) (adapter : Adapter) (m : Message)
    (p : Plugin) (w : σ) (hNot : adapter.ShouldRun p m = false) :
    pluginIteration ext adapter m p w = ([], w) := by
  simp [pluginIteration, hNot]

/-! ## The dispatch loop -/

/-- C1: in the plugin loop run for an inbound message `m`, an eligible plugin `p` whose `Run`
returns the text `t` without error makes the loop call `p.Run(m.Body)` and send exactly one
outbound message, placed between what the plugins before `p` and the plugins after `p`
produce; its `Channel` is `m.Channel` and its `Body` is `t` without its last byte when `t`
ends in a newline, and `t` itself otherwise. -/
theorem dispatch_reply_channel_and_body {σ : Type} (ext : External σ) (adapter : Adapter)
    (m : Message) (before after : List Plugin) (p : Plugin) (w w1 : σ) (t : GoString)
    (hElig : adapter.ShouldRun p m = true)
    (hRun : ext.Run p m.Body (handleMessage ext adapter m before w).2 = (Except.ok t, w1)) :
    ∃ body : GoString,
      (handleMessage ext adapter m (before ++ p :: after) w).1 =
        (handleMessage ext adapter m before w).1 ++
          [Event.run p m.Body, Event.stdout { Channel := m.Channel, Body := body }] ++
          (handleMessage ext adapter m after w1).1 ∧
      (∀ u, t = u ++ str "\n" → body = u) ∧
      ((∀ u, t ≠ u ++ str "\n") → body = t) := by
  refine ⟨TrimSuffix t newline, ?_, ?_, ?_⟩
  · rw [handleMessage_append]
    simp [handleMessage, pluginIteration_ok ext adapter m p _ w1 t hElig hRun]
  · intro u hu
    subst hu
    exact TrimSuffix_append_newline u
  · intro hu
    exact TrimSuffix_of_no_newline t hu

/-- Witness of C1: the plugin `twice` answers `"ack\n\n"`; the reply is `"ack\n"` on the
channel of the inbound message. -/
theorem dispatch_reply_channel_and_body_witness :
    ∃ body : GoString,
      (handleMessage Demo.ext Demo.adapter ⟨str "ops", str "ping"⟩
          ([Demo.P1] ++ Demo.PTwice :: [Demo.P2]) 0).1 =
        (handleMessage Demo.ext Demo.adapter ⟨str "ops", str "ping"⟩ [Demo.P1] 0).1 ++
          [Event.run Demo.PTwice (str "ping"),
            Event.stdout { Channel := str "ops", Body := body }] ++
          (handleMessage Demo.ext Demo.adapter ⟨str "ops", str "ping"⟩ [Demo.P2] 2).1 ∧
      (∀ u, str "ack\n\n" = u ++ str "\n" → body = u) ∧
      ((∀ u, str "ack\n\n" ≠ u ++ str "\n") → body = str "ack\n\n") :=
  dispatch_reply_channel_and_body Demo.ext Demo.adapter ⟨str "ops", str "ping"⟩
    [Demo.P1] [Demo.P2] Demo.PTwice 0 2 (str "ack\n\n") (by decide) (by rfl)


theorem runCalls_append (es fs : List Event) : runCalls (es ++ fs) = runCalls es ++ runCalls fs := by
  induction es with
  | nil => rfl
  | cons e es ih => cases e <;> simp [runCalls, ih]

theorem runCalls_handleMessage {σ : Type} (ext : External σ) (adapter : Adapter) (m : Message)
    (ps : List Plugin) (w : σ) :
    runCalls (handleMessage ext adapter m ps w).1 =
      (ps.filter (fun p => adapter.ShouldRun p m)).map (fun p => (p, m.Body)) := by
  induction ps generalizing w with
  | nil => rfl
  | cons p ps ih =>
    simp only [handleMessage, runCalls_append, ih]
    cases hE : adapter.ShouldRun p m
    · simp [pluginIteration, hE, runCalls]
    · rcases hR : ext.Run p m.Body w with ⟨r, w1⟩
      cases r <;> simp [pluginIteration, hE, hR, runCalls]

/-- C2: a plugin `p` that is not eligible for the inbound message `m` produces nothing in its
iteration of the plugin loop (no `Run` call, nothing on the outbound channel, nothing on the
error channel, the world unchanged); the loop gives the same trace and the same final world
as for the plugin list without `p`; and no trace of the loop for `m` holds a `Run` call of
`p`. -/
theorem dispatch_skips_ineligible {σ : Type} (ext : External σ) (adapter : Adapter)
    (m : Message) (p : Plugin) (hNot : adapter.ShouldRun p m = false) :
    (∀ w : σ, pluginIteration ext adapter m p w = ([], w)) ∧
    (∀ (before after : List Plugin) (w : σ),
      handleMessage ext adapter m (before ++ p :: after) w =
        handleMessage ext adapter m (before ++ after) w) ∧
    (∀ (ps : List Plugin) (w : σ) (input : GoString),
      (p, input) ∉ runCalls (handleMessage ext adapter m ps w).1) := by
  refine ⟨fun w => pluginIteration_skip ext adapter m p w hNot, ?_, ?_⟩
  · intro before after w
    rw [handleMessage_append, handleMessage_append]
    simp [handleMessage, pluginIteration_skip ext adapter m p _ hNot]
  · intro ps w input hmem
    rw [runCalls_handleMessage] at hmem
    simp only [List.mem_map, List.mem_filter, Prod.mk.injEq] at hmem
    obtain ⟨q, ⟨_, hq⟩, hqp, _⟩ := hmem
    subst hqp
    rw [hNot] at hq
    exact Bool.noConfusion hq

/-- Witness of C2: on the channel `general` the plugin P2 (allowlist `ops`) is skipped. -/
theorem dispatch_skips_ineligible_witness :
    (∀ w : Nat, pluginIteration Demo.ext Demo.adapter ⟨str "general", str "ping"⟩ Demo.P2 w
      = ([], w)) ∧
    (∀ (before after : List Plugin) (w : Nat),
      handleMessage Demo.ext Demo.adapter ⟨str "general", str "ping"⟩
          (before ++ Demo.P2 :: after) w =
        handleMessage Demo.ext Demo.adapter ⟨str "general", str "ping"⟩ (before ++ after) w) ∧
    (∀ (ps : List Plugin) (w : Nat) (input : GoString),
      (Demo.P2, input) ∉
        runCalls (handleMessage Demo.ext Demo.adapter ⟨str "general", str "ping"⟩ ps w).1) :=
  dispatch_skips_ineligible Demo.ext Demo.adapter ⟨str "general", str "ping"⟩ Demo.P2
    (by decide)

/-! ## The plugin loop with sends that may block -/

theorem pluginLoop_ready {σ : Type} (ext : External σ) (adapter : Adapter) (m : Message)
    (ps : List Plugin) (w : σ) :
    pluginLoop ext Channels.ready adapter m ps w =
      { trace := (handleMessage ext adapter m ps w).1
        world := (handleMessage ext adapter m ps w).2
        blocked := false } := by
  induction ps generalizing w with
  | nil => rfl
  | cons p ps ih =>
    have hb : pluginLoopBody ext Channels.ready adapter m p w =
        { trace := (pluginIteration ext adapter m p w).1
          world := (pluginIteration ext adapter m p w).2
          blocked := false } := by
      unfold pluginLoopBody pluginIteration
      cases adapter.ShouldRun p m
      · rfl
      · rcases hR : ext.Run p m.Body w with ⟨r, w1⟩
        cases r <;> simp [Channels.ready]
    simp [pluginLoop, handleMessage, hb, ih]

theorem teardown_trace {σ : Type} (ext : External σ) (plugins : List Plugin) (w : σ) :
    (teardown ext plugins w).1 = plugins.map Event.stop := by
  induction plugins generalizing w with
  | nil => rfl
  | cons p ps ih => simp [teardown, ih]

theorem teardown_world {σ : Type} (ext : External σ) (plugins : List Plugin) (w : σ) :
    (teardown ext plugins w).2 = plugins.foldl (fun u p => (ext.Stop p u).2) w := by
  induction plugins generalizing w with
  | nil => rfl
  | cons p ps ih => simp [teardown, ih]

/-- C5: whatever the `Stop` calls return, the teardown loop calls `Stop` on every plugin of
the list exactly once, in list order: the sequence of `Stop` calls is the plugin list, the
world it leaves is the world obtained by applying `Stop` to the plugins one after the other
in list order, and every record `log` of the world to which a `Stop` call on `p` adds `p` has
grown by exactly the plugin list. -/
theorem teardown_stops_each_once_in_order {σ : Type} (ext : External σ) (plugins : List Plugin)
    (w : σ) :
    (teardown ext plugins w).1 = plugins.map Event.stop ∧
    (teardown ext plugins w).2 = plugins.foldl (fun u p => (ext.Stop p u).2) w ∧
    (∀ (log : σ → List Plugin), (∀ p u, log (ext.Stop p u).2 = log u ++ [p]) →
      log (teardown ext plugins w).2 = log w ++ plugins) := by
  refine ⟨teardown_trace ext plugins w, teardown_world ext plugins w, ?_⟩
  intro log hLog
  induction plugins generalizing w with
  | nil => simp [teardown]
  | cons p ps ih => simp [teardown, ih, hLog]

/-- An instance of C5: with collaborators that record every `Stop` call, and whose `Stop`
always fails, the teardown of P1, P2, P1 records exactly P1, P2, P1. -/
theorem teardown_stops_each_once_in_order_witness :
    (teardown Demo.extLog [Demo.P1, Demo.P2, Demo.P1] []).2 = [Demo.P1, Demo.P2, Demo.P1] :=
  (teardown_stops_each_once_in_order Demo.extLog [Demo.P1, Demo.P2, Demo.P1] []).2.2
    (fun u => u) (fun _ _ => rfl)

/-! ## The shutdown barrier -/

theorem step_register (n np k : Nat) (hk : k < n) :
    step n np (Sys.afterRegister k) Action.register = some (Sys.afterRegister (k + 1)) := by
  simp [step, Sys.afterRegister, Sys.alive, hk, List.replicate_succ']

theorem exec_register (n np j k : Nat) (h : k + j ≤ n) :
    exec n np (Sys.afterRegister k) (List.replicate j Action.register) =
      some (Sys.afterRegister (k + j)) := by
  induction j generalizing k with
  | zero => rfl
  | succ j ih =>
    rw [List.replicate_succ, exec, step_register n np k (by omega)]
    simp only [Option.some_bind]
    rw [ih (k + 1) (by omega)]
    congr 2
    omega

theorem step_observe (n np i : Nat) (hi : i < n) :
    step n np (Sys.afterRegister n) (Action.observe i) = some (Sys.releasing n i 0) := by
  simp [step, Sys.afterRegister, Sys.releasing, Sys.alive, hi]

theorem step_done_next (n np i j : Nat) (hi : i < n) (hj : j + 1 < n) :
    step n np (Sys.releasing n i j) (Action.done i) = some (Sys.releasing n i (j + 1)) := by
  have h1 : ((List.replicate n WorkerPC.atSelect).set i (WorkerPC.inSignal j))[i]? =
      some (WorkerPC.inSignal j) := by simp [hi]
  simp only [step, Sys.releasing, h1]
  have hj2 : j < n := by omega
  have h3 : ¬ ((n : Int) - j - 1 < 0) := by omega
  simp [Sys.alive, hj, hj2, h3]
  omega

theorem step_done_last (n np i j : Nat) (hi : i < n) (hj : j + 1 = n) :
    step n np (Sys.releasing n i j) (Action.done i) = some (Sys.released n) := by
  have h1 : ((List.replicate n WorkerPC.atSelect).set i (WorkerPC.inSignal j))[i]? =
      some (WorkerPC.inSignal j) := by simp [hi]
  simp only [step, Sys.releasing, Sys.released, h1]
  have hj2 : j < n := by omega
  have hj3 : ¬ (j + 1 < n) := by omega
  have h3 : ¬ ((n : Int) - j - 1 < 0) := by omega
  simp [Sys.alive, hj2, hj3, h3]
  omega

theorem exec_done (n np i r j : Nat) (hi : i < n) (hr : 1 ≤ r) (h : j + r = n) :
    exec n np (Sys.releasing n i j) (List.replicate r (Action.done i)) =
      some (Sys.released n) := by
  induction r generalizing j with
  | zero => omega
  | succ r ih =>
    rw [List.replicate_succ, exec]
    by_cases hr0 : r = 0
    · subst hr0
      rw [step_done_last n np i j hi (by omega)]
      rfl
    · rw [step_done_next n np i j hi (by omega)]
      simp only [Option.some_bind]
      exact ih (j + 1) (by omega) (by omega)

theorem step_wait_released (n np : Nat) :
    step n np (Sys.released n) Action.wait =
      some { Sys.released n with mainPC := MainPC.teardown 0 } := by
  simp [step, Sys.released, Sys.alive]

/-- C6: with `n ≥ 1` adapters, the `n` iterations of the adapter loop bring the counter of the
`WaitGroup` to `n` with `wg.Wait()` blocked; if then any one worker `i` takes the signal
branch, its `n` iterations of the `wg.Done()` loop are all enabled, none panics, and they
take the counter to exactly `0` with exactly `n` `wg.Done()` calls made and one signal
observed; every other worker is still at its `select`, and `wg.Wait()` now returns. -/
theorem single_interrupt_releases_barrier (n np i : Nat) (hn : 1 ≤ n) (hi : i < n) :
    exec n np Sys.init (List.replicate n Action.register) = some (Sys.afterRegister n) ∧
    (Sys.afterRegister n).counter = n ∧
    step n np (Sys.afterRegister n) Action.wait = none ∧
    exec n np (Sys.afterRegister n) (Action.observe i :: List.replicate n (Action.done i)) =
      some (Sys.released n) ∧
    (Sys.released n).counter = 0 ∧
    (Sys.released n).dones = n ∧
    (Sys.released n).observed = 1 ∧
    (Sys.released n).panicked = false ∧
    (∀ k, k < n → (Sys.released n).workers[k]? = some WorkerPC.atSelect) ∧
    (∃ s, step n np (Sys.released n) Action.wait = some s ∧ s.mainPC = MainPC.teardown 0) := by
  refine ⟨?_, rfl, ?_, ?_, rfl, rfl, rfl, rfl, ?_, ?_⟩
  · have h := exec_register n np n 0 (by omega)
    simpa [Sys.afterRegister, Sys.init] using h
  · have : ¬ ((n : Int) = 0) := by omega
    simp [step, Sys.afterRegister, this]
  · rw [exec, step_observe n np i hi]
    simp only [Option.some_bind]
    exact exec_done n np i n 0 hi hn (by omega)
  · intro k hk
    simp [Sys.released, hk]
  · exact ⟨_, step_wait_released n np, rfl⟩

/-- Witness of C6: three adapters, the signal is taken by the second worker. -/
theorem single_interrupt_releases_barrier_witness :
    exec 3 2 Sys.init (List.replicate 3 Action.register) = some (Sys.afterRegister 3) ∧
    (Sys.afterRegister 3).counter = (3 : Nat) ∧
    step 3 2 (Sys.afterRegister 3) Action.wait = none ∧
    exec 3 2 (Sys.afterRegister 3) (Action.observe 1 :: List.replicate 3 (Action.done 1)) =
      some (Sys.released 3) ∧
    (Sys.released 3).counter = 0 ∧
    (Sys.released 3).dones = 3 ∧
    (Sys.released 3).observed = 1 ∧
    (Sys.released 3).panicked = false ∧
    (∀ k, k < 3 → (Sys.released 3).workers[k]? = some WorkerPC.atSelect) ∧
    (∃ s, step 3 2 (Sys.released 3) Action.wait = some s ∧ s.mainPC = MainPC.teardown 0) :=
  single_interrupt_releases_barrier 3 2 1 (by decide) (by decide)

/-- C9: the code over-decrements the `WaitGroup`. First run: one adapter and two interrupts;
the second pass through the signal branch calls `wg.Done()` on a counter that is `0`. Second
run: two adapters and one interrupt, taken by the first worker before the second adapter is
registered; its two `wg.Done()` calls stand against one `wg.Add(1)`. In both runs two
`wg.Done()` calls were made against one `wg.Add(1)`, the counter is `-1` and the `WaitGroup`
has panicked. -/
theorem interrupt_overdecrements_waitgroup :
    exec 1 0 Sys.init
        [Action.register, Action.observe 0, Action.done 0, Action.observe 0, Action.done 0] =
      some { mainPC := MainPC.running, registered := 1, counter := -1,
             workers := [WorkerPC.atSelect], adds := 1, dones := 2, observed := 2,
             handled := 0, panicked := true } ∧
    exec 2 0 Sys.init [Action.register, Action.observe 0, Action.done 0, Action.done 0] =
      some { mainPC := MainPC.running, registered := 1, counter := -1,
             workers := [WorkerPC.atSelect], adds := 1, dones := 2, observed := 1,
             handled := 0, panicked := true } := by
  constructor <;> decide

theorem BarrierInv_init (n : Nat) : BarrierInv n Sys.init := by
  simp [BarrierInv, Sys.init]

theorem BarrierInv_step (n np : Nat) (s t : Sys) (a : Action)
    (h : step n np s a = some t) (hI : BarrierInv n s) : BarrierInv n t := by
  obtain ⟨hc, ho⟩ := hI
  cases a with
  | register =>
    simp only [step] at h
    split at h
    · rename_i hg
      injection h with h
      subst h
      refine ⟨?_, fun h0 => ?_⟩
      · simp only [hc]; push_cast; omega
      · obtain ⟨hd, hw, _⟩ := ho h0
        refine ⟨hd, ?_, fun _ => hg.2.1⟩
        intro x hx
        rcases List.mem_append.1 hx with hx | hx
        · exact hw x hx
        · simpa using hx
    · cases h
  | wait =>
    simp only [step] at h
    split at h
    · rename_i hg
      injection h with h
      subst h
      refine ⟨hc, fun h0 => ?_⟩
      obtain ⟨hd, hw, _⟩ := ho h0
      refine ⟨hd, hw, fun hn => ?_⟩
      exfalso
      have h1 := hg.2.2.1
      have h2 := hg.2.2.2
      rw [hc, hd, h1] at h2
      simp at h2
      omega
    · cases h
  | stop =>
    simp only [step] at h
    split at h
    · rename_i k hk
      split at h
      · injection h with h
        subst h
        refine ⟨hc, fun h0 => ?_⟩
        obtain ⟨hd, hw, hm⟩ := ho h0
        refine ⟨hd, hw, fun hn => ?_⟩
        have := hm hn
        rw [hk] at this
        cases this
      · cases h
    · cases h
  | exit =>
    simp only [step] at h
    split at h
    · rename_i k hk
      split at h
      · injection h with h
        subst h
        refine ⟨hc, fun h0 => ?_⟩
        obtain ⟨hd, hw, hm⟩ := ho h0
        refine ⟨hd, hw, fun hn => ?_⟩
        have := hm hn
        rw [hk] at this
        cases this
      · cases h
    · cases h
  | observe i =>
    simp only [step] at h
    split at h
    · injection h with h
      subst h
      refine ⟨hc, fun h0 => ?_⟩
      simp at h0
    · cases h
  | done i =>
    simp only [step] at h
    split at h
    · rename_i j hj
      split at h
      · injection h with h
        subst h
        refine ⟨?_, fun h0 => ?_⟩
        · simp only [hc]; push_cast; omega
        · exfalso
          have h0s : s.observed = 0 := h0
          obtain ⟨_, hw, _⟩ := ho h0s
          have hmem : WorkerPC.inSignal j ∈ s.workers := List.getElem?_mem hj
          have := hw _ hmem
          cases this
      · cases h
    · cases h
  | message i =>
    simp only [step] at h
    split at h
    · injection h with h
      subst h
      exact ⟨hc, ho⟩
    · cases h

theorem BarrierInv_exec (n np : Nat) (acts : List Action) (s t : Sys)
    (h : exec n np s acts = some t) (hI : BarrierInv n s) : BarrierInv n t := by
  induction acts generalizing s with
  | nil =>
    simp only [exec, Option.some.injEq] at h
    subst h
    exact hI
  | cons a as ih =>
    simp only [exec] at h
    cases hs : step n np s a with
    | none => simp [hs] at h
    | some u =>
      rw [hs] at h
      exact ih u (by simpa using h) (BarrierInv_step n np s u a hs hI)

/-- C10, the case the claim misses: with an empty adapter list no `wg.Add(1)` is made,
`wg.Wait()` returns at once and the teardown loop stops a plugin although no worker has
observed a signal (there is no worker). -/
theorem empty_adapter_list_teardown_without_interrupt :
    ∃ s : Sys, Reachable 0 1 s ∧ s.mainPC = MainPC.teardown 1 ∧ s.observed = 0 :=
  ⟨{ Sys.init with mainPC := MainPC.teardown 1 }, ⟨[Action.wait, Action.stop], by decide⟩,
    rfl, rfl⟩

/-- C10, amended: with at least one adapter, in every reachable state in which the main
goroutine is past `wg.Wait()` (in the teardown loop, or returned), some worker has taken the
signal branch before. -/
theorem teardown_only_after_interrupt (n np : Nat) (s : Sys) (hn : 1 ≤ n)
    (hR : Reachable n np s) (hT : s.mainPC ≠ MainPC.running) : 1 ≤ s.observed := by
  obtain ⟨acts, hacts⟩ := hR
  have hI := BarrierInv_exec n np acts Sys.init s hacts (BarrierInv_init n)
  by_contra hlt
  have h0 : s.observed = 0 := by omega
  exact hT ((hI.2 h0).2.2 hn)

/-- Witness of C10, amended: one adapter, one plugin; the worker takes the signal branch, the
barrier is released and the plugin is stopped. -/
theorem teardown_only_after_interrupt_witness :
    1 ≤ (1 : Nat) ∧
    Reachable 1 1 { Sys.released 1 with mainPC := MainPC.teardown 1 } ∧
    ({ Sys.released 1 with mainPC := MainPC.teardown 1 } : Sys).mainPC ≠ MainPC.running ∧
    1 ≤ ({ Sys.released 1 with mainPC := MainPC.teardown 1 } : Sys).observed :=
  ⟨by decide,
    ⟨[Action.register, Action.observe 0, Action.done 0, Action.wait, Action.stop], by decide⟩,
    by decide,
    teardown_only_after_interrupt 1 1 { Sys.released 1 with mainPC := MainPC.teardown 1 }
      (by decide)
      ⟨[Action.register, Action.observe 0, Action.done 0, Action.wait, Action.stop], by decide⟩
      (by decide)⟩

/-! ## The loaders -/

/-- The loaders on `Demo.config`: the plugin loader stops at the descriptor `bad` and returns a
nil list; without that descriptor it returns both handles, flags copied. -/
theorem loadPlugins_on_demo_config :
    loadPlugins Demo.ext Demo.config 0 =
      (([], some (errLoadingPlugin (str "bad") (str "no such image"))), 2) ∧
    loadPlugins Demo.ext
        { Demo.config with Plugins := Demo.config.Plugins.take 1 ++ Demo.config.Plugins.drop 2 } 0 =
      (([⟨0, str "pong", [str "ops"], false, true⟩, ⟨1, str "ack", [], false, false⟩], none), 2) := by
  constructor <;> decide

/-! ## The process after the signal -/

theorem procExec_append {σ : Type} (ext : External σ) (ch : Channels σ) (adapters : List Adapter)
    (plugins : List Plugin) (s : Proc σ) (as bs : List Move) :
    procExec ext ch adapters plugins s (as ++ bs) =
      (procExec ext ch adapters plugins s as).bind
        (fun t => procExec ext ch adapters plugins t bs) := by
  induction as generalizing s with
  | nil => simp [procExec]
  | cons a as ih =>
    rw [List.cons_append]
    simp only [procExec]
    cases procStep ext ch adapters plugins s a with
    | none => rfl
    | some t => simpa using ih t

theorem procExec_register {σ : Type} (ext : External σ) (ch : Channels σ)
    (adapters : List Adapter) (plugins : List Plugin) (w : σ) (tr : List Event)
    (st : List Nat) (j k : Nat) (h : k + j ≤ adapters.length) :
    procExec ext ch adapters plugins
        { sys := Sys.afterRegister k, world := w, trace := tr, stuck := st }
        (List.replicate j Move.register) =
      some { sys := Sys.afterRegister (k + j), world := w, trace := tr, stuck := st } := by
  induction j generalizing k with
  | zero => rfl
  | succ j ih =>
    rw [List.replicate_succ, procExec]
    simp only [procStep, step_register adapters.length plugins.length k (by omega),
      Option.map_some', Option.some_bind]
    rw [ih (k + 1) (by omega)]
    congr 3
    omega

theorem procExec_done {σ : Type} (ext : External σ) (ch : Channels σ)
    (adapters : List Adapter) (plugins : List Plugin) (w : σ) (tr : List Event)
    (i r j : Nat) (hi : i < adapters.length) (hr : 1 ≤ r) (h : j + r = adapters.length) :
    procExec ext ch adapters plugins
        { sys := Sys.releasing adapters.length i j, world := w, trace := tr, stuck := [] }
        (List.replicate r (Move.done i)) =
      some { sys := Sys.released adapters.length, world := w,
             trace := tr ++ List.replicate r Event.done, stuck := [] } := by
  induction r generalizing j tr with
  | zero => omega
  | succ r ih =>
    rw [List.replicate_succ, procExec]
    by_cases hr0 : r = 0
    · subst hr0
      simp [procStep, step_done_last adapters.length plugins.length i j hi (by omega), procExec]
    · simp only [procStep, List.not_mem_nil, if_false,
        step_done_next adapters.length plugins.length i j hi (by omega),
        Option.map_some', Option.some_bind]
      rw [ih (tr ++ [Event.done]) (j + 1) (by omega) (by omega)]
      simp [List.replicate_succ]

theorem step_stop_tearingDown (n np k : Nat) (hk : k < np) :
    step n np (Sys.tearingDown n k) Action.stop = some (Sys.tearingDown n (k + 1)) := by
  simp [step, Sys.tearingDown, Sys.released, Sys.alive, hk]

theorem procExec_stop {σ : Type} (ext : External σ) (ch : Channels σ)
    (adapters : List Adapter) (plugins : List Plugin) (w : σ) (tr : List Event)
    (k : Nat) (hk : k ≤ plugins.length) :
    procExec ext ch adapters plugins
        { sys := Sys.tearingDown adapters.length 0, world := w, trace := tr, stuck := [] }
        (List.replicate k Move.stop) =
      some { sys := Sys.tearingDown adapters.length k,
             world := (teardown ext (plugins.take k) w).2,
             trace := tr ++ (plugins.take k).map Event.stop, stuck := [] } := by
  induction k with
  | zero => simp [procExec, teardown]
  | succ k ih =>
    have hlt : k < plugins.length := by omega
    rw [List.replicate_succ', procExec_append, ih (by omega)]
    obtain ⟨p, hp⟩ : ∃ p, plugins[k]? = some p := ⟨plugins[k], List.getElem?_eq_getElem hlt⟩
    have htake : plugins.take (k + 1) = plugins.take k ++ [p] := by
      rw [List.take_succ, hp]; rfl
    have hpc : (Sys.tearingDown adapters.length k).mainPC = MainPC.teardown k := rfl
    simp only [Option.some_bind, procExec, procStep, hpc, hp,
      step_stop_tearingDown adapters.length plugins.length k hlt]
    simp [htake, teardown_world, List.foldl_append]

theorem step_message_tearingDown (n np j k : Nat) (hj : j < n) :
    step n np (Sys.tearingDown n k) (Action.message j) =
      some { Sys.tearingDown n k with handled := 1 } := by
  simp [step, Sys.tearingDown, Sys.released, Sys.alive, hj]

theorem pluginLoop_runs_first_eligible {σ : Type} (ext : External σ) (ch : Channels σ)
    (adapter : Adapter) (m : Message) (ps : List Plugin) (w : σ) (p0 : Plugin)
    (rest : List Plugin) (h : ps.filter (fun p => adapter.ShouldRun p m) = p0 :: rest) :
    ∃ tl, runCalls (pluginLoop ext ch adapter m ps w).trace = (p0, m.Body) :: tl := by
  induction ps generalizing w with
  | nil => simp at h
  | cons p ps ih =>
    cases hE : adapter.ShouldRun p m
    · have hl : pluginLoop ext ch adapter m (p :: ps) w = pluginLoop ext ch adapter m ps w := by
        simp [pluginLoop, pluginLoopBody, hE]
      rw [hl]
      exact ih w (by simpa [List.filter, hE] using h)
    · have hp : p = p0 := by
        simp only [List.filter, hE, List.cons.injEq] at h
        exact h.1
      subst hp
      rcases hR : ext.Run p m.Body w with ⟨r, w1⟩
      cases r with
      | error e =>
        cases hS : ch.sendStderr e w1 <;>
          simp [pluginLoop, pluginLoopBody, hE, hR, hS, runCalls, runCalls_append]
      | ok t =>
        cases hS : ch.sendStdout { Channel := m.Channel, Body := TrimSuffix t newline } w1 <;>
          simp [pluginLoop, pluginLoopBody, hE, hR, hS, runCalls, runCalls_append]

theorem procExec_shutdownMoves {σ : Type} (ext : External σ) (ch : Channels σ)
    (adapters : List Adapter) (plugins : List Plugin) (i k : Nat) (w : σ)
    (hi : i < adapters.length) (hk : k ≤ plugins.length) :
    procExec ext ch adapters plugins (Proc.init w) (shutdownMoves adapters.length i k) =
      some { sys := Sys.tearingDown adapters.length k,
             world := (teardown ext (plugins.take k) w).2,
             trace := List.replicate adapters.length Event.done ++
               (plugins.take k).map Event.stop,
             stuck := [] } := by
  have h0 : (Proc.init w : Proc σ) =
      { sys := Sys.afterRegister 0, world := w, trace := [], stuck := [] } := by
    simp [Proc.init, Sys.init, Sys.afterRegister]
  have hreg := procExec_register ext ch adapters plugins w [] [] adapters.length 0 (by omega)
  have hobs : procStep ext ch adapters plugins
      { sys := Sys.afterRegister adapters.length, world := w, trace := [], stuck := [] }
      (Move.observe i) =
      some { sys := Sys.releasing adapters.length i 0, world := w, trace := [], stuck := [] } := by
    simp [procStep, step_observe adapters.length plugins.length i hi]
  have hdone := procExec_done ext ch adapters plugins w [] i adapters.length 0 hi (by omega)
    (by omega)
  have hwait : procStep ext ch adapters plugins
      { sys := Sys.released adapters.length, world := w,
        trace := [] ++ List.replicate adapters.length Event.done, stuck := [] } Move.wait =
      some { sys := Sys.tearingDown adapters.length 0, world := w,
             trace := List.replicate adapters.length Event.done, stuck := [] } := by
    simp [procStep, step_wait_released, Sys.tearingDown]
  have hstop := procExec_stop ext ch adapters plugins w
    (List.replicate adapters.length Event.done) k hk
  rw [shutdownMoves, h0, procExec_append, procExec_append]
  simp only [Nat.zero_add] at hreg
  rw [hreg]
  simp only [Option.some_bind, procExec, hobs]
  rw [hdone]
  simp only [Option.some_bind, procExec, hwait]
  exact hstop

/-- C8, as stated, fails: one adapter, one plugin. The worker takes the signal branch and
makes its `wg.Done()` call, `wg.Wait()` returns and the plugin P1 is stopped; the worker, back
at its `select`, then receives a message and calls `Run` on P1: the `Run` call comes after
the signal and after the `Stop` call. -/
theorem worker_dispatches_after_signal :
    procExec Demo.ext Channels.ready [Demo.adapter] [Demo.P1] (Proc.init 0)
        [Move.register, Move.observe 0, Move.done 0, Move.wait, Move.stop,
          Move.stdin 0 ⟨str "ops", str "ping"⟩] =
      some { sys := { mainPC := MainPC.teardown 1, registered := 1, counter := 0,
                      workers := [WorkerPC.atSelect], adds := 1, dones := 1, observed := 1,
                      handled := 1, panicked := false }
             world := 1
             trace := [Event.done, Event.stop Demo.P1, Event.run Demo.P1 (str "ping"),
               Event.stdout { Channel := str "ops", Body := str "pong" }]
             stuck := [] } := by
  decide

/-- C8, amended: the signal terminates no worker. With all adapters registered, let worker `i`
take the signal branch and make its `len(adapters)` `wg.Done()` calls, let `wg.Wait()` return
and let the teardown loop stop `k` plugins. This run is possible, and in the state it reaches
every worker `j`, the worker `i` included, is still able to receive an inbound message `m`:
it then runs the plugin loop for `m`, which calls `Run` on the first plugin eligible for `m`.
Only once `main` has returned is the step no longer possible. -/
theorem workers_dispatch_after_signal {σ : Type} (ext : External σ) (ch : Channels σ)
    (adapters : List Adapter) (plugins : List Plugin) (i j k : Nat) (adapter : Adapter)
    (m : Message) (w : σ)
    (hi : i < adapters.length) (hj : adapters[j]? = some adapter) (hk : k ≤ plugins.length) :
    procExec ext ch adapters plugins (Proc.init w) (shutdownMoves adapters.length i k) =
      some { sys := Sys.tearingDown adapters.length k,
             world := (teardown ext (plugins.take k) w).2,
             trace := List.replicate adapters.length Event.done ++
               (plugins.take k).map Event.stop,
             stuck := [] } ∧
    (Sys.tearingDown adapters.length k).observed = 1 ∧
    procStep ext ch adapters plugins
        { sys := Sys.tearingDown adapters.length k,
          world := (teardown ext (plugins.take k) w).2,
          trace := List.replicate adapters.length Event.done ++
            (plugins.take k).map Event.stop,
          stuck := [] }
        (Move.stdin j m) =
      some { sys := { Sys.tearingDown adapters.length k with handled := 1 },
             world := (pluginLoop ext ch adapter m plugins
               (teardown ext (plugins.take k) w).2).world,
             trace := List.replicate adapters.length Event.done ++
               (plugins.take k).map Event.stop ++
               (pluginLoop ext ch adapter m plugins (teardown ext (plugins.take k) w).2).trace,
             stuck :=
               if (pluginLoop ext ch adapter m plugins
                 (teardown ext (plugins.take k) w).2).blocked then [j] else [] } ∧
    (∀ (p0 : Plugin) (rest : List Plugin),
      plugins.filter (fun p => adapter.ShouldRun p m) = p0 :: rest →
      ∃ tl, runCalls (pluginLoop ext ch adapter m plugins
        (teardown ext (plugins.take k) w).2).trace = (p0, m.Body) :: tl) ∧
    (∀ (t : Proc σ),
      procExec ext ch adapters plugins (Proc.init w)
          (shutdownMoves adapters.length i plugins.length ++ [Move.exit]) = some t →
      procStep ext ch adapters plugins t (Move.stdin j m) = none) := by
  have hjlt : j < adapters.length := by
    rcases List.getElem?_eq_some.1 hj with ⟨h, _⟩
    exact h
  refine ⟨procExec_shutdownMoves ext ch adapters plugins i k w hi hk, rfl, ?_, ?_, ?_⟩
  · simp [procStep, hj, step_message_tearingDown adapters.length plugins.length j k hjlt]
  · intro p0 rest h
    exact pluginLoop_runs_first_eligible ext ch adapter m plugins _ p0 rest h
  · intro t ht
    rw [procExec_append,
      procExec_shutdownMoves ext ch adapters plugins i plugins.length w hi (Nat.le_refl _)] at ht
    have hpc : (Sys.tearingDown adapters.length plugins.length).mainPC =
        MainPC.teardown plugins.length := rfl
    have hexit : step adapters.length plugins.length
        (Sys.tearingDown adapters.length plugins.length) Action.exit =
        some { Sys.tearingDown adapters.length plugins.length with mainPC := MainPC.exited } := by
      simp [step, Sys.tearingDown, Sys.released, Sys.alive]
    simp only [Option.some_bind, procExec, procStep, hexit, Option.map_some',
      Option.some.injEq] at ht
    subst ht
    simp [procStep, step, Sys.alive, Sys.tearingDown, Sys.released]

/-- Witness of C8, amended: two adapters, the plugins P1 and P2; the first worker takes the
signal, one plugin is stopped, and the second worker receives a message. -/
theorem workers_dispatch_after_signal_witness :
    (0 < [Demo.adapter, Demo.adapter].length ∧
      [Demo.adapter, Demo.adapter][1]? = some Demo.adapter ∧
      1 ≤ [Demo.P1, Demo.P2].length) ∧
    procExec Demo.ext Channels.ready [Demo.adapter, Demo.adapter] [Demo.P1, Demo.P2]
        (Proc.init 0) (shutdownMoves 2 0 1 ++ [Move.stdin 1 ⟨str "ops", str "ping"⟩]) =
      some { sys := { Sys.tearingDown 2 1 with handled := 1 }
             world := 2
             trace := [Event.done, Event.done, Event.stop Demo.P1,
               Event.run Demo.P1 (str "ping"), Event.stdout ⟨str "ops", str "pong"⟩,
               Event.run Demo.P2 (str "ping"), Event.stdout ⟨str "ops", str "ack"⟩]
             stuck := [] } ∧
    (∀ (p0 : Plugin) (rest : List Plugin),
      [Demo.P1, Demo.P2].filter (fun p => Demo.adapter.ShouldRun p ⟨str "ops", str "ping"⟩) =
        p0 :: rest →
      ∃ tl, runCalls (pluginLoop Demo.ext Channels.ready Demo.adapter ⟨str "ops", str "ping"⟩
        [Demo.P1, Demo.P2] (teardown Demo.ext ([Demo.P1, Demo.P2].take 1) 0).2).trace =
          (p0, str "ping") :: tl) :=
  ⟨⟨by decide, rfl, by decide⟩, by decide,
    (workers_dispatch_after_signal Demo.ext Channels.ready [Demo.adapter, Demo.adapter]
      [Demo.P1, Demo.P2] 0 1 1 Demo.adapter ⟨str "ops", str "ping"⟩ 0
      (by decide) rfl (by decide)).2.2.2.1⟩

end Botella
